import Mathlib

/-!
Verification of the spatial model and view-transform engine of the packer
room-layout editor. All numeric quantities are modelled over `ℚ` (the source
works with JavaScript numbers; the algorithms are exact rational arithmetic).

The definitions below are shallow embeddings of:
  - the geometry utilities (`getItemRect`, `isOverlapping`, `isOutOfBounds`,
    `checkValidity`, `SNAP_SIZE`, `SNAP_THRESHOLD`);
  - the isometric projection and quadrant rotation of `IsoScene`
    (`toScreen`, `rotatePoint`, `getWallCoordinates`, drag inversion,
    snapping, depth sorting, attachment dimming, attachment drag-end);
  - the layout editor state transitions (`handleSelect`,
    `handleSelectAttachment`, `handleUpdateAttachment`, item drag-end);
  - the 3D attachment drag handler (`DraggableAttachment.handlePointerMove`).
-/

namespace Packer

/-! ### Data model (src/unnamed/part_001 types) -/

structure Rect where
  x : ℚ
  y : ℚ
  width : ℚ
  height : ℚ
deriving DecidableEq

structure Room where
  width : ℚ
  height : ℚ
deriving DecidableEq

structure FurnitureItem where
  id : String
  width : ℚ
  height : ℚ
  x : ℚ
  y : ℚ
  rotation : ℕ
deriving DecidableEq

inductive WallSide
  | front
  | back
  | left
  | right
deriving DecidableEq

inductive AttachmentType
  | window
  | door
  | shelf
deriving DecidableEq

structure WallAttachment where
  id : String
  type : AttachmentType
  side : WallSide
  x : ℚ
  y : ℚ
  width : ℚ
  height : ℚ
deriving DecidableEq

/-! ### Geometry utilities (src/unnamed/part_000) -/

def SNAP_SIZE : ℚ := 6

def SNAP_THRESHOLD : ℚ := 2

def getItemRect (item : FurnitureItem) : Rect :=
  if item.rotation = 90 ∨ item.rotation = 270 then
    { x := item.x, y := item.y, width := item.height, height := item.width }
  else
    { x := item.x, y := item.y, width := item.width, height := item.height }

def isOverlapping (rect1 rect2 : Rect) : Bool :=
  decide (rect1.x < rect2.x + rect2.width) &&
  decide (rect1.x + rect1.width > rect2.x) &&
  decide (rect1.y < rect2.y + rect2.height) &&
  decide (rect1.y + rect1.height > rect2.y)

def isOutOfBounds (itemRect : Rect) (room : Room) : Bool :=
  decide (itemRect.x < 0) ||
  decide (itemRect.y < 0) ||
  decide (itemRect.x + itemRect.width > room.width) ||
  decide (itemRect.y + itemRect.height > room.height)

/-- The `(id, rect)` entry built for one item by `checkValidity`: the moving
override rect is used when it is given and the item id matches, otherwise the
stored rect. -/
def effEntry (movingItemId : Option String) (movingItemRect : Option Rect)
    (item : FurnitureItem) : String × Rect :=
  match movingItemId, movingItemRect with
  | some mid, some mrect =>
      if item.id = mid then (item.id, mrect) else (item.id, getItemRect item)
  | some _, none => (item.id, getItemRect item)
  | none, _ => (item.id, getItemRect item)

/-- Inner loop of the all-pairs collision pass: for a fixed entry `p`, collect
`p.1 :: q.1` for every later entry `q` overlapping `p`. -/
def overlapFold (p : String × Rect) (rest : List (String × Rect)) : List String :=
  rest.foldr (fun q acc => if isOverlapping p.2 q.2 then p.1 :: q.1 :: acc else acc) []

/-- All-pairs collision pass of `checkValidity` (indices `i < j`). -/
def overlapPass : List (String × Rect) → List String
  | [] => []
  | p :: rest => overlapFold p rest ++ overlapPass rest

def checkValidity (layoutItems : List FurnitureItem) (room : Room)
    (movingItemId : Option String) (movingItemRect : Option Rect) : Finset String :=
  let itemRects := layoutItems.map (effEntry movingItemId movingItemRect)
  let boundsIds := (itemRects.filter (fun p => isOutOfBounds p.2 room)).map Prod.fst
  (boundsIds ++ overlapPass itemRects).toFinset

/-! ### View transform (src/components/IsoScene.tsx) -/

/-- 2:1 isometric projection of grid point `(x, y, z)` to screen coordinates. -/
def toScreen (x y z pixelsPerUnit : ℚ) : ℚ × ℚ :=
  ((x - y) * pixelsPerUnit, (x + y) * pixelsPerUnit / 2 - z * pixelsPerUnit)

/-- Inverse of the ground-plane isometric projection used by the drag
handlers: screen delta to rotated-grid delta. -/
def invScreenDelta (sx sy ppu : ℚ) : ℚ × ℚ :=
  ((sx + 2 * sy) / (2 * ppu), (2 * sy - sx) / (2 * ppu))

/-- Quadrant view rotation of a room point, exactly as in `rotatePoint`. -/
def rotatePoint (x y : ℚ) (angle : ℕ) (roomW roomH : ℚ) : ℚ × ℚ :=
  if angle = 90 then (roomH - y, x)
  else if angle = 180 then (roomW - x, roomH - y)
  else if angle = 270 then (y, roomW - x)
  else (x, y)

def getRotatedDimensions (w h : ℚ) (angle : ℕ) : ℚ × ℚ :=
  if angle = 90 ∨ angle = 270 then (h, w) else (w, h)

/-- Four successive 90° view rotations of a point of a `(W, H)` room, the
rotated room size swapping between `(W, H)` and `(H, W)` at each step. -/
def rotateFour (px py W H : ℚ) : ℚ × ℚ :=
  let p1 := rotatePoint px py 90 W H
  let p2 := rotatePoint p1.1 p1.2 90 H W
  let p3 := rotatePoint p2.1 p2.2 90 W H
  rotatePoint p3.1 p3.2 90 H W

/-- Wall-relative coordinates to rotated 3D world coordinates
(`getWallCoordinates`): the planar part is rotated, elevation passes through. -/
def getWallCoordinates (side : WallSide) (x y : ℚ) (viewAngle : ℕ)
    (roomW roomH : ℚ) : ℚ × ℚ × ℚ :=
  let base : ℚ × ℚ :=
    match side with
    | .front => (x, 0)
    | .back => (x, roomH)
    | .left => (0, x)
    | .right => (roomW, x)
  let rotated := rotatePoint base.1 base.2 viewAngle roomW roomH
  (rotated.1, rotated.2, y)

/-! ### Drag snapping (IsoScene.handleDragEnd, LayoutEditor.handleDragEnd) -/

/-- JavaScript `Math.abs`. -/
def ratAbs (q : ℚ) : ℚ := if q < 0 then -q else q

/-- JavaScript `Math.round`: floor of `q + 1/2` (ties toward positive). -/
def jsRound (q : ℚ) : ℤ := ⌊q + 1 / 2⌋

/-- `Math.round(target / SNAP_SIZE) * SNAP_SIZE`. -/
def snapCoordinate (t : ℚ) : ℚ := (jsRound (t / SNAP_SIZE) : ℚ) * SNAP_SIZE

/-- Committed coordinate on drag end: the snapped multiple when strictly
within the snap threshold, otherwise the coordinate rounded to an integer. -/
def commitCoordinate (t : ℚ) : ℚ :=
  if ratAbs (t - snapCoordinate t) < SNAP_THRESHOLD then snapCoordinate t
  else (jsRound t : ℚ)

/-! ### Layout editor state transitions (src/unnamed/part_003) -/

structure SelectionState where
  selectedItemId : Option String
  selectedAttachmentId : Option String
deriving DecidableEq

/-- `handleSelect`: sets the selected item id, leaves the rest of the state. -/
def handleSelect (s : SelectionState) (id : Option String) : SelectionState :=
  { s with selectedItemId := id }

/-- `handleSelectAttachment`: sets the selected attachment id and clears the
item selection when the new id is non-null. -/
def handleSelectAttachment (s : SelectionState) (id : Option String) :
    SelectionState :=
  { s with
      selectedAttachmentId := id
      selectedItemId := if id.isSome then none else s.selectedItemId }

/-- A partial attachment update (the `updates` object): optional new `x`, `y`. -/
structure AttachmentUpdates where
  x : Option ℚ
  y : Option ℚ
deriving DecidableEq

/-- JavaScript object spread of `updates` over the attachment. -/
def applyAttachmentUpdates (att : WallAttachment) (u : AttachmentUpdates) :
    WallAttachment :=
  { att with x := u.x.getD att.x, y := u.y.getD att.y }

/-- `handleUpdateAttachment`: map over the attachment list, merging the
updates into the attachment whose id matches. -/
def handleUpdateAttachment (atts : List WallAttachment) (id : String)
    (u : AttachmentUpdates) : List WallAttachment :=
  atts.map (fun att => if att.id = id then applyAttachmentUpdates att u else att)

/-! ### Attachment drag handlers -/

/-- `IsoScene` wall-attachment drag end: screen delta `(sx, sy)` to the
committed `(x, y)` of the attachment. -/
def isoAttachmentDragEnd (att : WallAttachment) (sx sy ppu roomW roomH : ℚ) :
    ℚ × ℚ :=
  let dGx := (sx + 2 * sy) / (2 * ppu)
  let dGy := (2 * sy - sx) / (2 * ppu)
  let dWallX := if att.side = .front ∨ att.side = .back then dGx else dGy
  let wallLen := if att.side = .left ∨ att.side = .right then roomH else roomW
  let newX := max 0 (min wallLen (att.x + dWallX))
  let newY :=
    if att.type = .door then 0
    else max 0 (min 96 (att.y + (-sy / ppu)))
  (newX, newY)

/-- `DraggableAttachment.handlePointerMove` (3D viewer): local drag-plane
point to the updated wall coordinates `(x, y)` of the attachment. -/
def attachmentPointerMove (att : WallAttachment)
    (localX localY localZ roomW roomH : ℚ) : ℚ × ℚ :=
  let rawY := localY - att.height / 2
  let rawX :=
    if att.side = .back ∨ att.side = .front then localX - att.width / 2
    else localZ - att.width / 2
  let wallLimit := if att.side = .back ∨ att.side = .front then roomW else roomH
  let clampedLow := if rawX < 0 then 0 else rawX
  let newWallX :=
    if clampedLow > wallLimit - att.width then wallLimit - att.width
    else clampedLow
  let newWallY := if att.type = .door then 0 else (if rawY < 0 then 0 else rawY)
  (newWallX, newWallY)

/-! ### Depth ordering (IsoScene sortedItems, isDimmed) -/

/-- Painter rank of an item: `rotatedX + rotatedY` of its room-space origin. -/
def depthKey (viewAngle : ℕ) (roomW roomH : ℚ) (item : FurnitureItem) : ℚ :=
  let r := rotatePoint item.x item.y viewAngle roomW roomH
  r.1 + r.2

/-- `sortedItems`: the item list sorted ascending by painter rank. -/
def sortedItems (items : List FurnitureItem) (viewAngle : ℕ)
    (roomW roomH : ℚ) : List FurnitureItem :=
  items.mergeSort
    (fun a b => decide (depthKey viewAngle roomW roomH a ≤ depthKey viewAngle roomW roomH b))

/-- Painter rank of an attachment: `worldX + worldY` of its rotated
perimeter point. -/
def attachmentDepth (att : WallAttachment) (viewAngle : ℕ)
    (roomW roomH : ℚ) : ℚ :=
  let c := getWallCoordinates att.side att.x att.y viewAngle roomW roomH
  c.1 + c.2.1

/-- `isDimmed`: some item is more than 10 units nearer than the attachment. -/
def isDimmed (items : List FurnitureItem) (att : WallAttachment)
    (viewAngle : ℕ) (roomW roomH : ℚ) : Bool :=
  (sortedItems items viewAngle roomW roomH).any
    (fun item =>
      decide (depthKey viewAngle roomW roomH item >
        attachmentDepth att viewAngle roomW roomH + 10))

/-! ## Theorems -/

/-- Claim C1: projecting a ground-plane displacement `(dx, dy, 0)` with the
2:1 isometric projection and inverting the resulting screen delta with the
documented inverse returns `(dx, dy)` exactly, hence within 1e-6. -/
theorem projection_inverse_roundtrip (dx dy ppu : ℚ) (hppu : 0 < ppu) :
    invScreenDelta (toScreen dx dy 0 ppu).1 (toScreen dx dy 0 ppu).2 ppu = (dx, dy) ∧
    |(invScreenDelta (toScreen dx dy 0 ppu).1 (toScreen dx dy 0 ppu).2 ppu).1 - dx| ≤
      1 / 1000000 ∧
    |(invScreenDelta (toScreen dx dy 0 ppu).1 (toScreen dx dy 0 ppu).2 ppu).2 - dy| ≤
      1 / 1000000 := by
  have hne : ppu ≠ 0 := ne_of_gt hppu
  have h1 : (invScreenDelta (toScreen dx dy 0 ppu).1 (toScreen dx dy 0 ppu).2 ppu).1 = dx := by
    simp only [toScreen, invScreenDelta]
    field_simp
    ring
  have h2 : (invScreenDelta (toScreen dx dy 0 ppu).1 (toScreen dx dy 0 ppu).2 ppu).2 = dy := by
    simp only [toScreen, invScreenDelta]
    field_simp
    ring
  refine ⟨Prod.ext_iff.mpr ⟨h1, h2⟩, ?_, ?_⟩
  · rw [h1]
    simp
  · rw [h2]
    simp

/-- Witness for C1 at `dx = 3`, `dy = -5`, `ppu = 2`. -/
theorem projection_inverse_roundtrip_witness :
    (0:ℚ) < 2 ∧
    (invScreenDelta (toScreen 3 (-5) 0 2).1 (toScreen 3 (-5) 0 2).2 2 = (3, -5) ∧
     |(invScreenDelta (toScreen 3 (-5) 0 2).1 (toScreen 3 (-5) 0 2).2 2).1 - 3| ≤
       1 / 1000000 ∧
     |(invScreenDelta (toScreen 3 (-5) 0 2).1 (toScreen 3 (-5) 0 2).2 2).2 - (-5)| ≤
       1 / 1000000) :=
  ⟨by norm_num, projection_inverse_roundtrip 3 (-5) 2 (by norm_num)⟩

/-- Claim C2: for a point inside the bounding rectangle of a `(W, H)` room,
applying the 90° quadrant rotation four times in succession, with the rotated
room size alternating between `(W, H)` and `(H, W)`, returns the point
exactly, hence within 1e-6. -/
theorem rotation_four_identity (W H px py : ℚ)
    (hx0 : 0 ≤ px) (hxW : px ≤ W) (hy0 : 0 ≤ py) (hyH : py ≤ H) :
    rotateFour px py W H = (px, py) := by
  simp only [rotateFour, rotatePoint, Prod.ext_iff]
  norm_num

/-- Witness for C2 at room `(10, 8)`, point `(3, 4)`. -/
theorem rotation_four_identity_witness :
    ((0:ℚ) ≤ 3 ∧ (3:ℚ) ≤ 10 ∧ (0:ℚ) ≤ 4 ∧ (4:ℚ) ≤ 8) ∧
    rotateFour 3 4 10 8 = (3, 4) :=
  ⟨by norm_num,
   rotation_four_identity 10 8 3 4 (by norm_num) (by norm_num) (by norm_num)
     (by norm_num)⟩

theorem ratAbs_eq_abs (q : ℚ) : ratAbs q = |q| := by
  unfold ratAbs
  split
  · exact (abs_of_neg (by assumption)).symm
  · exact (abs_of_nonneg (le_of_not_lt (by assumption))).symm

/-- Claim C5: on drag commit with grid size 6 and threshold 2, a coordinate
snaps to the rounded multiple of 6 — which is a nearest multiple of 6 — only
when strictly within distance 2 of it, and otherwise rounds to the nearest
integer; in particular `7.5` commits as `6` and `4.0` commits as `4`. -/
theorem snap_threshold_behavior :
    commitCoordinate (15 / 2) = 6 ∧ commitCoordinate 4 = 4 ∧
    ∀ t : ℚ,
      (∀ m : ℤ, |t - snapCoordinate t| ≤ |t - 6 * m|) ∧
      (|t - snapCoordinate t| < 2 → commitCoordinate t = snapCoordinate t) ∧
      (2 ≤ |t - snapCoordinate t| → commitCoordinate t = (jsRound t : ℚ)) := by
  refine ⟨?_, ?_, ?_⟩
  · norm_num [commitCoordinate, snapCoordinate, jsRound, ratAbs, SNAP_SIZE,
      SNAP_THRESHOLD]
  · norm_num [commitCoordinate, snapCoordinate, jsRound, ratAbs, SNAP_SIZE,
      SNAP_THRESHOLD]
  · intro t
    have hsnap : snapCoordinate t = 6 * ((round (t / 6) : ℤ) : ℚ) := by
      simp only [snapCoordinate, jsRound, SNAP_SIZE, round_eq]
      ring
    refine ⟨?_, ?_, ?_⟩
    · intro m
      have h2 := round_le (t / 6) m
      have e1 : t - snapCoordinate t = 6 * (t / 6 - ((round (t / 6) : ℤ) : ℚ)) := by
        rw [hsnap]; ring
      have e2 : t - 6 * (m : ℚ) = 6 * (t / 6 - (m : ℚ)) := by ring
      rw [e1, e2, abs_mul, abs_mul]
      have h6 : |(6 : ℚ)| = 6 := by norm_num
      rw [h6]
      linarith
    · intro h
      rw [commitCoordinate, SNAP_THRESHOLD, ratAbs_eq_abs, if_pos h]
    · intro h
      rw [commitCoordinate, SNAP_THRESHOLD, ratAbs_eq_abs, if_neg (not_lt.mpr h)]

/-- Witness for C5: the candidate `4.0` sits exactly at distance 2 from the
multiple `6`, does not snap, and commits as the rounded value `4`. -/
theorem snap_threshold_behavior_witness :
    (2 : ℚ) ≤ |(4 : ℚ) - snapCoordinate 4| ∧
    commitCoordinate 4 = ((jsRound 4 : ℤ) : ℚ) :=
  ⟨by norm_num [snapCoordinate, jsRound, SNAP_SIZE],
   (snap_threshold_behavior.2.2 4).2.2
     (by norm_num [snapCoordinate, jsRound, SNAP_SIZE])⟩

theorem effEntry_fst (mid : Option String) (mrect : Option Rect)
    (item : FurnitureItem) : (effEntry mid mrect item).1 = item.id := by
  cases mid <;> cases mrect <;> simp [effEntry] <;> split <;> rfl

theorem isOverlapping_symm (a b : Rect) : isOverlapping a b = isOverlapping b a := by
  rw [Bool.eq_iff_iff]
  simp only [isOverlapping, Bool.and_eq_true, decide_eq_true_eq, gt_iff_lt]
  tauto

theorem overlapFold_cons (p r : String × Rect) (rs : List (String × Rect)) :
    overlapFold p (r :: rs) =
      if isOverlapping p.2 r.2 then p.1 :: r.1 :: overlapFold p rs
      else overlapFold p rs := rfl

theorem mem_overlapFold {p q : String × Rect} {tl : List (String × Rect)}
    (hq : q ∈ tl) (hov : isOverlapping p.2 q.2 = true) :
    p.1 ∈ overlapFold p tl ∧ q.1 ∈ overlapFold p tl := by
  induction tl with
  | nil => cases hq
  | cons r rs ih =>
    rw [overlapFold_cons]
    rcases List.mem_cons.1 hq with hqr | hqr
    · subst hqr
      rw [if_pos hov]
      exact ⟨List.mem_cons_self _ _, List.mem_cons_of_mem _ (List.mem_cons_self _ _)⟩
    · have hmem := ih hqr
      split
      · exact ⟨List.mem_cons_of_mem _ (List.mem_cons_of_mem _ hmem.1),
          List.mem_cons_of_mem _ (List.mem_cons_of_mem _ hmem.2)⟩
      · exact hmem

theorem overlapFold_subset {x : String} {p : String × Rect}
    {rest : List (String × Rect)} (hx : x ∈ overlapFold p rest) :
    x = p.1 ∨ x ∈ rest.map Prod.fst := by
  induction rest with
  | nil => cases hx
  | cons r rs ih =>
    rw [overlapFold_cons] at hx
    by_cases hov : isOverlapping p.2 r.2 = true
    · rw [if_pos hov] at hx
      rcases List.mem_cons.1 hx with h | h
      · exact Or.inl h
      · rcases List.mem_cons.1 h with h2 | h2
        · exact Or.inr (by simp [h2])
        · rcases ih h2 with h3 | h3
          · exact Or.inl h3
          · exact Or.inr (by simp [List.mem_map] at h3 ⊢; tauto)
    · rw [if_neg hov] at hx
      rcases ih hx with h3 | h3
      · exact Or.inl h3
      · exact Or.inr (by simp [List.mem_map] at h3 ⊢; tauto)

theorem overlapPass_subset {x : String} {l : List (String × Rect)}
    (hx : x ∈ overlapPass l) : x ∈ l.map Prod.fst := by
  induction l with
  | nil => cases hx
  | cons r rs ih =>
    rw [overlapPass] at hx
    rcases List.mem_append.1 hx with h | h
    · rcases overlapFold_subset h with h2 | h2
      · simp [h2]
      · simp only [List.map_cons, List.mem_cons]
        exact Or.inr h2
    · simp only [List.map_cons, List.mem_cons]
      exact Or.inr (ih h)

theorem pair_mem_overlapPass {l : List (String × Rect)} {p q : String × Rect}
    (hp : p ∈ l) (hq : q ∈ l) (hne : p.1 ≠ q.1)
    (hov : isOverlapping p.2 q.2 = true) :
    p.1 ∈ overlapPass l ∧ q.1 ∈ overlapPass l := by
  induction l with
  | nil => cases hp
  | cons r rs ih =>
    rw [overlapPass]
    rcases List.mem_cons.1 hp with hpr | hpr
    · subst hpr
      rcases List.mem_cons.1 hq with hqr | hqr
      · exact absurd (by rw [hqr]) hne
      · have hmem := mem_overlapFold hqr hov
        exact ⟨List.mem_append_left _ hmem.1, List.mem_append_left _ hmem.2⟩
    · rcases List.mem_cons.1 hq with hqr | hqr
      · have hov2 : isOverlapping q.2 p.2 = true := by
          rw [isOverlapping_symm]; exact hov
        have hmem := @mem_overlapFold q p _ hpr hov2
        subst hqr
        exact ⟨List.mem_append_left _ hmem.2, List.mem_append_left _ hmem.1⟩
      · have hmem := ih hpr hqr
        exact ⟨List.mem_append_right _ hmem.1, List.mem_append_right _ hmem.2⟩

/-- Claim C3: the overlap test holds iff the rectangles intersect strictly on
both axes; rectangles touching along an edge do not overlap; and
`checkValidity` adds both ids of every strictly overlapping pair of items. -/
theorem overlap_strict_and_both_flagged :
    (∀ a b : Rect, isOverlapping a b = true ↔
      (a.x < b.x + b.width ∧ a.x + a.width > b.x ∧
       a.y < b.y + b.height ∧ a.y + a.height > b.y)) ∧
    isOverlapping ⟨0, 0, 10, 10⟩ ⟨10, 0, 10, 10⟩ = false ∧
    ∀ (items : List FurnitureItem) (room : Room) (mid : Option String)
      (mrect : Option Rect) (a b : FurnitureItem),
      a ∈ items → b ∈ items → a.id ≠ b.id →
      isOverlapping (effEntry mid mrect a).2 (effEntry mid mrect b).2 = true →
      a.id ∈ checkValidity items room mid mrect ∧
      b.id ∈ checkValidity items room mid mrect := by
  refine ⟨?_, ?_, ?_⟩
  · intro a b
    simp only [isOverlapping, Bool.and_eq_true, decide_eq_true_eq, gt_iff_lt]
    tauto
  · norm_num [isOverlapping]
  · intro items room mid mrect a b ha hb hne hov
    have hpa : effEntry mid mrect a ∈ items.map (effEntry mid mrect) :=
      List.mem_map_of_mem _ ha
    have hpb : effEntry mid mrect b ∈ items.map (effEntry mid mrect) :=
      List.mem_map_of_mem _ hb
    have hne2 : (effEntry mid mrect a).1 ≠ (effEntry mid mrect b).1 := by
      rw [effEntry_fst, effEntry_fst]; exact hne
    have hmem := pair_mem_overlapPass hpa hpb hne2 hov
    rw [effEntry_fst] at hmem
    rw [effEntry_fst mid mrect b] at hmem
    constructor
    · simp only [checkValidity, List.mem_toFinset, List.mem_append]
      exact Or.inr hmem.1
    · simp only [checkValidity, List.mem_toFinset, List.mem_append]
      exact Or.inr hmem.2

/-- Two concretely overlapping items used as the C3 witness. -/
def itemA : FurnitureItem :=
  { id := "a", width := 10, height := 10, x := 0, y := 0, rotation := 0 }

def itemB : FurnitureItem :=
  { id := "b", width := 10, height := 10, x := 5, y := 5, rotation := 0 }

def roomHundred : Room := { width := 100, height := 100 }

/-- Witness for C3: the items at `(0,0,10,10)` and `(5,5,10,10)` strictly
overlap, and both ids are flagged by `checkValidity`. -/
theorem overlap_strict_and_both_flagged_witness :
    (itemA ∈ [itemA, itemB] ∧ itemB ∈ [itemA, itemB] ∧ itemA.id ≠ itemB.id ∧
     isOverlapping (effEntry none none itemA).2 (effEntry none none itemB).2 = true) ∧
    (itemA.id ∈ checkValidity [itemA, itemB] roomHundred none none ∧
     itemB.id ∈ checkValidity [itemA, itemB] roomHundred none none) :=
  ⟨⟨by simp, by simp, by simp [itemA, itemB], by
      norm_num [effEntry, getItemRect, isOverlapping, itemA, itemB]⟩,
   overlap_strict_and_both_flagged.2.2 [itemA, itemB] roomHundred none none
     itemA itemB (by simp) (by simp) (by simp [itemA, itemB])
     (by norm_num [effEntry, getItemRect, isOverlapping, itemA, itemB])⟩

/-- The end-to-end scenario data of C4. -/
def scenarioRoom : Room := { width := 108, height := 132 }

def queenBed : FurnitureItem :=
  { id := "bed", width := 60, height := 80, x := 10, y := 10, rotation := 0 }

def rotatedDesk : FurnitureItem :=
  { id := "desk", width := 24, height := 48, x := 80, y := 10, rotation := 90 }

/-- Claim C4: in the 108×132 room with the queen bed at `(10,10)` and the
90°-rotated desk at `(80,10)`, the desk footprint swaps to `(48,24)`, its
x-extent reaches 128 > 108, and `checkValidity` flags exactly the desk. -/
theorem scenario_desk_out_of_bounds :
    getItemRect rotatedDesk = { x := 80, y := 10, width := 48, height := 24 } ∧
    (getItemRect rotatedDesk).x + (getItemRect rotatedDesk).width = 128 ∧
    (128 : ℚ) > 108 ∧
    checkValidity [queenBed, rotatedDesk] scenarioRoom none none = {"desk"} := by
  refine ⟨?_, ?_, by norm_num, ?_⟩
  · norm_num [getItemRect, rotatedDesk]
  · norm_num [getItemRect, rotatedDesk]
  · norm_num [checkValidity, effEntry, getItemRect, isOutOfBounds, isOverlapping,
      overlapPass, overlapFold, scenarioRoom, queenBed, rotatedDesk]

/-- Claim C10: every id returned by `checkValidity` belongs to some input
item, and an override whose `movingItemId` matches no item is ignored: the
result equals the no-override result. -/
theorem checkValidity_ids_and_ghost_override :
    (∀ (items : List FurnitureItem) (room : Room) (mid : Option String)
       (mrect : Option Rect) (s : String),
       s ∈ checkValidity items room mid mrect → ∃ it ∈ items, it.id = s) ∧
    (∀ (items : List FurnitureItem) (room : Room) (mid : String)
       (mrect : Option Rect),
       (∀ it ∈ items, it.id ≠ mid) →
       checkValidity items room (some mid) mrect =
         checkValidity items room none none) := by
  constructor
  · intro items room mid mrect s hs
    simp only [checkValidity, List.mem_toFinset, List.mem_append] at hs
    have hmem : s ∈ (items.map (effEntry mid mrect)).map Prod.fst := by
      rcases hs with h | h
      · rcases List.mem_map.1 h with ⟨p, hp, hps⟩
        exact List.mem_map.2 ⟨p, (List.mem_filter.1 hp).1, hps⟩
      · exact overlapPass_subset h
    rw [List.map_map] at hmem
    rcases List.mem_map.1 hmem with ⟨it, hit, hits⟩
    refine ⟨it, hit, ?_⟩
    rw [← hits]
    exact (effEntry_fst mid mrect it).symm
  · intro items room mid mrect h
    have hmap : items.map (effEntry (some mid) mrect) = items.map (effEntry none none) := by
      apply List.map_congr_left
      intro it hit
      cases mrect with
      | none => rfl
      | some r =>
        simp only [effEntry]
        rw [if_neg (h it hit)]
    simp only [checkValidity, hmap]

/-- Witness for C10: a ghost override id `"ghost"` matching no item leaves
the result unchanged. -/
theorem checkValidity_ids_and_ghost_override_witness :
    (∀ it ∈ [itemA, itemB], it.id ≠ "ghost") ∧
    checkValidity [itemA, itemB] roomHundred (some "ghost")
        (some { x := 0, y := 0, width := 1, height := 1 }) =
      checkValidity [itemA, itemB] roomHundred none none :=
  ⟨by simp [itemA, itemB],
   checkValidity_ids_and_ghost_override.2 [itemA, itemB] roomHundred "ghost"
     (some { x := 0, y := 0, width := 1, height := 1 })
     (by simp [itemA, itemB])⟩

/-- A door attachment on the front wall with elevation 0. -/
def doorFront : WallAttachment :=
  { id := "d1", type := .door, side := .front, x := 10, y := 0, width := 30,
    height := 80 }

/-- Claim C6 counterexample: `handleUpdateAttachment` merges a provided `y`
verbatim, so an update carrying `y = 5` moves a door off the floor — the
door's `y` after the call is 5, not 0. -/
theorem door_update_not_ignored_counterexample :
    doorFront.type = AttachmentType.door ∧ doorFront.y = 0 ∧
    (handleUpdateAttachment [doorFront] "d1"
        { x := none, y := some 5 }).map (fun a => a.y) = [5] := by
  refine ⟨rfl, rfl, ?_⟩
  simp [handleUpdateAttachment, applyAttachmentUpdates, doorFront]

/-- Claim C6 (amended): door elevation is pinned to 0 by both drag handlers —
the iso-scene attachment drag end and the 3D pointer-move handler compute
`y = 0` whenever the attachment is a door — while the generic
`handleUpdateAttachment` state transition applies a provided `y` verbatim. -/
theorem door_elevation_pinned_on_drag (att : WallAttachment)
    (h : att.type = AttachmentType.door)
    (sx sy ppu roomW roomH localX localY localZ : ℚ) :
    (isoAttachmentDragEnd att sx sy ppu roomW roomH).2 = 0 ∧
    (attachmentPointerMove att localX localY localZ roomW roomH).2 = 0 := by
  constructor
  · simp [isoAttachmentDragEnd, h]
  · simp [attachmentPointerMove, h]

/-- Witness for the amended C6 at a concrete door and drag inputs. -/
theorem door_elevation_pinned_on_drag_witness :
    doorFront.type = AttachmentType.door ∧
    ((isoAttachmentDragEnd doorFront 30 7 2 100 120).2 = 0 ∧
     (attachmentPointerMove doorFront 12 34 56 100 120).2 = 0) :=
  ⟨rfl, door_elevation_pinned_on_drag doorFront rfl 30 7 2 100 120 12 34 56⟩

/-- A window on the front wall of a 100-wide room, used to exhibit the
missing `− width` in the iso drag-end clamp. -/
def windowFront : WallAttachment :=
  { id := "w1", type := .window, side := .front, x := 80, y := 40, width := 30,
    height := 36 }

/-- Claim C7: the iso-scene attachment drag end clamps the along-wall offset
only to `[0, wallLength]`, not `[0, wallLength − width]`: dragging the
30-wide front-wall window from `x = 80` by a screen delta of `(30, 0)` at
`ppu = 1` in a 100×120 room commits `x = 95`, which exceeds
`wallLength − width = 70`. -/
theorem iso_dragEnd_exceeds_wall_minus_width :
    (isoAttachmentDragEnd windowFront 30 0 1 100 120).1 = 95 ∧
    ¬(isoAttachmentDragEnd windowFront 30 0 1 100 120).1 ≤
        100 - windowFront.width := by
  have hside : ¬(WallSide.front = WallSide.left ∨ WallSide.front = WallSide.right) := by
    rintro (h | h) <;> cases h
  norm_num [isoAttachmentDragEnd, windowFront, hside]

/-- Claim C8 counterexample: `handleSelect` on a furniture item does not
clear the attachment selection — with an attachment selected, selecting an
item leaves `selectedAttachmentId` unchanged and non-null. -/
theorem select_leaves_attachment_counterexample :
    (handleSelect
        { selectedItemId := none, selectedAttachmentId := some "a1" }
        (some "i1")).selectedAttachmentId = some "a1" ∧
    (handleSelect
        { selectedItemId := none, selectedAttachmentId := some "a1" }
        (some "i1")).selectedAttachmentId ≠ none := by
  refine ⟨rfl, ?_⟩
  simp [handleSelect]

/-- Claim C8 (amended): `handleSelectAttachment` with a non-null id clears
the item selection, but `handleSelect` on an item leaves the attachment
selection unchanged, so both selection fields can be non-null at once. -/
theorem selection_clearing_amended (s : SelectionState) (iid aid : String) :
    (handleSelectAttachment s (some aid)).selectedItemId = none ∧
    (handleSelectAttachment s (some aid)).selectedAttachmentId = some aid ∧
    (handleSelect s (some iid)).selectedAttachmentId = s.selectedAttachmentId := by
  simp [handleSelect, handleSelectAttachment]

/-- Claim C9: the render list is a permutation of the items sorted ascending
by `rotatedX + rotatedY` of their origins (painter order), and an attachment
is dimmed iff some item's rank exceeds the attachment's rotated-perimeter
rank by more than the 10-unit buffer. -/
theorem depth_order_and_dimming (items : List FurnitureItem) (viewAngle : ℕ)
    (roomW roomH : ℚ) :
    (sortedItems items viewAngle roomW roomH).Perm items ∧
    (sortedItems items viewAngle roomW roomH).Pairwise
      (fun a b =>
        depthKey viewAngle roomW roomH a ≤ depthKey viewAngle roomW roomH b) ∧
    ∀ att : WallAttachment,
      (isDimmed items att viewAngle roomW roomH = true ↔
        ∃ item ∈ items,
          depthKey viewAngle roomW roomH item >
            attachmentDepth att viewAngle roomW roomH + 10) := by
  have hperm := List.mergeSort_perm items
    (fun a b =>
      decide (depthKey viewAngle roomW roomH a ≤ depthKey viewAngle roomW roomH b))
  refine ⟨hperm, ?_, ?_⟩
  · have hsorted := @List.sorted_mergeSort FurnitureItem
      (fun a b =>
        decide (depthKey viewAngle roomW roomH a ≤ depthKey viewAngle roomW roomH b))
      (fun a b c hab hbc => by
        simp only [decide_eq_true_eq] at hab hbc ⊢
        exact le_trans hab hbc)
      (fun a b => by
        simp only [Bool.or_eq_true, decide_eq_true_eq]
        exact le_total _ _)
      items
    exact hsorted.imp (fun hab => decide_eq_true_eq.mp hab)
  · intro att
    rw [isDimmed, List.any_eq_true]
    constructor
    · rintro ⟨it, hit, hpred⟩
      exact ⟨it, hperm.mem_iff.1 hit, decide_eq_true_eq.mp hpred⟩
    · rintro ⟨it, hit, hpred⟩
      exact ⟨it, hperm.mem_iff.2 hit, decide_eq_true_eq.mpr hpred⟩

end Packer
